import Mathlib

/-!
Verification development for the command dispatch and execution pipeline of
`server.py` (the `/execute` endpoint and its helpers).

The embedding models:

* the configuration registry `COMMANDS` (values are either a plain template
  string or a record with a `cmd` template and a `description`),
* Python `str.format(**args)` as used on line 44 of `server.py` to resolve a
  template against the request's keyword arguments,
* the placeholder-listing regular expression `\{(\w+)\}` used on line 133,
* the `/execute` request handler: field validation, registry lookup, template
  resolution, subprocess execution with a 30 second timeout, and the mapping
  of every failure mode to an HTTP error or an uncaught exception.

The `str.format` model is a character-level state machine that is faithful on
literal text, doubled-brace escapes, simple keyword replacement fields, the
left-to-right order of field evaluation (so the first missing key determines
the raised `KeyError`), conversion markers (`!c`) and format specifications
(`:spec`) up to the point where a value would have to be rendered through
`repr`, attribute access, or a non-empty format specification; those
renderings are outside the model and are reported as the distinguished error
`FmtError.unmodeled` rather than being given some made-up result.  Argument
values are modelled as strings, matching the data model of the spec.
-/

/-- Errors that `str.format` can raise while resolving a template.
`keyError nm` models `KeyError(nm)` (a missing keyword argument),
`valueError` models `ValueError` (malformed format string), `indexError`
models `IndexError` (positional or auto-numbered fields with no positional
arguments), and `unmodeled` marks renderings outside the model's scope. -/
inductive FmtError where
  | keyError (nm : String)
  | valueError
  | indexError
  | unmodeled
deriving DecidableEq

/-- Python dictionary lookup on a list of key/value pairs (first match wins;
dictionaries built from JSON objects have unique keys). -/
def alookup {α : Type} : List (String × α) → String → Option α
  | [], _ => none
  | (k, v) :: r, key => if k = key then some v else alookup r key

/-- A word character in the sense of the regular expression `\w` (restricted
to ASCII, which covers the templates the repository ships and tests). -/
def wordChar (c : Char) : Bool := c.isAlphanum || c == '_'

/-- Characters that end the first component of a `str.format` field name:
an attribute access dot or an index opening bracket. -/
def fieldStops (c : Char) : Bool := c == '.' || c == '['

/-- First component of a field name, before any `.attr` or `[index]`
trailer; this is the part looked up among the keyword arguments. -/
def fieldHead (nm : List Char) : List Char := nm.takeWhile (fun c => !(fieldStops c))

/-- Resolution of one replacement field against the keyword arguments,
mirroring CPython `str.format`: the first component of the field name is
looked up first (raising `KeyError` with exactly that component when it is
absent), positional and auto-numbered fields raise `IndexError` because the
call site passes keyword arguments only, and attribute/index trailers and
conversions other than `!s` are outside the model. -/
def evalField (args : List (String × String)) (nm : List Char) (cv : Option Char) :
    Except FmtError String :=
  if nm.isEmpty then .error .indexError
  else if (fieldHead nm).isEmpty then .error .indexError
  else if (fieldHead nm).all Char.isDigit then .error .indexError
  else
    match alookup args (String.mk (fieldHead nm)) with
    | none => .error (.keyError (String.mk (fieldHead nm)))
    | some v =>
      if (fieldHead nm).length = nm.length then
        match cv with
        | none => .ok v
        | some c => if c = 's' then .ok v else .error .unmodeled
      else .error .unmodeled

/-- Lookup performed for one replacement field nested inside a format
specification: only the part before a conversion or nested specification is
looked up, as in CPython's specification expansion. -/
def nestedFieldErr (args : List (String × String)) (nm : List Char) : Option FmtError :=
  if (nm.takeWhile (fun c => !(c == '!' || c == ':'))).isEmpty then some .indexError
  else if (fieldHead (nm.takeWhile (fun c => !(c == '!' || c == ':')))).all Char.isDigit then
    some .indexError
  else
    match alookup args (String.mk (fieldHead (nm.takeWhile (fun c => !(c == '!' || c == ':'))))) with
    | none => some (.keyError (String.mk (fieldHead (nm.takeWhile (fun c => !(c == '!' || c == ':'))))))
    | some _ => none

/-- One character of the scan that expands replacement fields nested inside
a format specification.  The state is `none` outside a nested field and
`some nm` while collecting the name of a nested field. -/
def specScanStep (args : List (String × String))
    (st : Except FmtError (Option (List Char))) (ch : Char) :
    Except FmtError (Option (List Char)) :=
  match st with
  | .error e => .error e
  | .ok none => if ch = '\x7b' then .ok (some []) else .ok none
  | .ok (some nm) =>
    if ch = '\x7d' then
      match nestedFieldErr args nm with
      | some e => .error e
      | none => .ok none
    else if ch = '\x7b' then .error .unmodeled
    else .ok (some (nm ++ [ch]))

/-- Application of a format specification to an already-resolved value.  An
empty specification returns the value unchanged (as `format(v, "")` does);
a non-empty specification first performs the nested-field lookups in order
(so their `KeyError`s surface faithfully) and is otherwise outside the
model, since rendering through alignment, width or precision never occurs
in the claims under verification. -/
def applySpec (args : List (String × String)) (v : String) (sp : List Char) :
    Except FmtError String :=
  match sp with
  | [] => .ok v
  | _ :: _ =>
    match sp.foldl (specScanStep args) (.ok none) with
    | .error e => .error e
    | .ok _ => .error .unmodeled

/-- Parser modes of the `str.format` scan. -/
inductive Mode where
  | text
  | sawL
  | sawR
  | name (nm : List Char)
  | bang (nm : List Char)
  | conv (nm : List Char) (c : Char)
  | spec (nm : List Char) (c : Option Char) (sp : List Char) (depth : Nat)
deriving DecidableEq

/-- State of the `str.format` scan: either an already-raised error, or the
current parser mode together with the output accumulated so far. -/
abbrev FmtSt := Except FmtError (Mode × List Char)

/-- Completion of a replacement field: evaluate the field, apply its format
specification, and append the rendering to the output. -/
def finishField (args : List (String × String)) (nm : List Char) (cv : Option Char)
    (sp : List Char) (out : List Char) : FmtSt :=
  match evalField args nm cv with
  | .error e => .error e
  | .ok v =>
    match applySpec args v sp with
    | .error e => .error e
    | .ok v2 => .ok (.text, out ++ v2.data)

/-- One character inside a field name.  A closing brace completes the field,
`!` starts a conversion, `:` starts a format specification, and an opening
brace is malformed (`ValueError`), exactly as in CPython's parser. -/
def nameStep (args : List (String × String)) (nm : List Char) (out : List Char)
    (ch : Char) : FmtSt :=
  if ch = '\x7d' then finishField args nm none [] out
  else if ch = '!' then .ok (.bang nm, out)
  else if ch = ':' then .ok (.spec nm none [] 0, out)
  else if ch = '\x7b' then .error .valueError
  else .ok (.name (nm ++ [ch]), out)

/-- One character of the `str.format` scan. -/
def step (args : List (String × String)) (st : FmtSt) (ch : Char) : FmtSt :=
  match st with
  | .error e => .error e
  | .ok (m, out) =>
    match m with
    | .text =>
      if ch = '\x7b' then .ok (.sawL, out)
      else if ch = '\x7d' then .ok (.sawR, out)
      else .ok (.text, out ++ [ch])
    | .sawL =>
      if ch = '\x7b' then .ok (.text, out ++ ['\x7b'])
      else nameStep args [] out ch
    | .sawR =>
      if ch = '\x7d' then .ok (.text, out ++ ['\x7d'])
      else .error .valueError
    | .name nm => nameStep args nm out ch
    | .bang nm => .ok (.conv nm ch, out)
    | .conv nm c =>
      if ch = '\x7d' then finishField args nm (some c) [] out
      else if ch = ':' then .ok (.spec nm (some c) [] 0, out)
      else .error .valueError
    | .spec nm c sp d =>
      if ch = '\x7d' then
        if d = 0 then finishField args nm c sp out
        else .ok (.spec nm c (sp ++ ['\x7d']) (d - 1), out)
      else if ch = '\x7b' then .ok (.spec nm c (sp ++ ['\x7b']) (d + 1), out)
      else .ok (.spec nm c (sp ++ [ch]) d, out)

/-- The model of `template.format(**args)` from line 44 of `server.py`:
run the scan over the template and require it to end outside any
replacement field (a trailing lone brace is a `ValueError`). -/
def pyFormat (t : String) (args : List (String × String)) : Except FmtError String :=
  match t.data.foldl (step args) (.ok (.text, [])) with
  | .error e => .error e
  | .ok (.text, out) => .ok (String.mk out)
  | .ok _ => .error .valueError

/-- One character of the scan performed by `re.findall(r"\{(\w+)\}", s)`
(line 133 of `server.py`): the state holds the candidate placeholder opened
by the latest unmatched `{`, plus the matches found so far. -/
def phStep (st : Option (List Char) × List String) (ch : Char) :
    Option (List Char) × List String :=
  match st with
  | (none, acc) => if ch = '\x7b' then (some [], acc) else (none, acc)
  | (some nm, acc) =>
    if ch = '\x7d' then
      if nm.isEmpty then (none, acc) else (none, acc ++ [String.mk nm])
    else if ch = '\x7b' then (some [], acc)
    else if wordChar ch then (some (nm ++ [ch]), acc)
    else (none, acc)

/-- The placeholder tokens `{identifier}` of a template, in left-to-right
scan order, as computed by the repository's own listing code. -/
def findPlaceholders (s : String) : List String := (s.data.foldl phStep (none, [])).2

/-- A configuration value of the `COMMANDS` registry: either a plain
template string or a record carrying a `cmd` template and a `description`. -/
inductive CfgVal where
  | plain (s : String)
  | record (cmd : String) (description : String)
deriving DecidableEq

/-- The template string shown for a registry entry by the `/commands`
listing (lines 126-132 of `server.py`), which unwraps record values. -/
def listedTemplate : CfgVal → String
  | .plain s => s
  | .record c _ => c

/-- Exceptions that escape the request handler uncaught (FastAPI then
produces a transport-level internal server error, unlike the deliberate
`HTTPException`s).  `attributeError` is what `dict.format` raises when a
record-form configuration value reaches line 44. -/
inductive PyExc where
  | attributeError
  | valueError
  | indexError
  | unmodeled
deriving DecidableEq

/-- Observable outcome of one `/execute` request: a JSON result payload, a
raised `HTTPException` with status code and detail, or an exception that
escapes the handler. -/
inductive Outcome where
  | response (status : String) (stdout : String) (stderr : String) (returncode : Int)
  | httpError (code : Nat) (detail : String)
  | uncaught (e : PyExc)
deriving DecidableEq

/-- Result of `subprocess.run(cmd, shell=True, capture_output=True,
text=True, timeout=30)`: normal completion with an exit code and captured
streams, a raised `TimeoutExpired`, or another exception while launching. -/
inductive RunOutcome where
  | completed (returncode : Int) (stdout : String) (stderr : String)
  | timedOut
  | launchFailed (msg : String)
deriving DecidableEq

/-- The fixed execution timeout passed to `subprocess.run` (line 52). -/
def TIMEOUT : Nat := 30

/-- The text of `str(subprocess.TimeoutExpired(cmd, 30))`, which becomes the
detail of the HTTP 500 error on a timeout. -/
def timeoutMessage (cmd : String) : String :=
  "Command \x27" ++ cmd ++ "\x27 timed out after 30 seconds"

/-- The keyword arguments passed to `format`: every request field except
`command` (line 42 of `server.py`). -/
def stripArgs (data : List (String × String)) : List (String × String) :=
  data.filter (fun kv => kv.1 != "command")

/-- Everything the `/execute` handler does before launching a process
(lines 31-47 of `server.py`): validate the `command` field, look the name up
in the registry, and resolve the template.  The result is either an early
`Outcome` (no process is launched) or the resolved command line. -/
def dispatchPlan (commands : List (String × CfgVal)) (data : List (String × String)) :
    Except Outcome String :=
  match alookup data "command" with
  | none => .error (.httpError 400 "Missing \x27command\x27 field")
  | some name =>
    if name = "" then .error (.httpError 400 "Missing \x27command\x27 field")
    else
      match alookup commands name with
      | none => .error (.httpError 404 "Unknown command")
      | some (.record _ _) => .error (.uncaught .attributeError)
      | some (.plain tmpl) =>
        match pyFormat tmpl (stripArgs data) with
        | .error (.keyError n) => .error (.httpError 400 ("Missing argument: " ++ n))
        | .error .valueError => .error (.uncaught .valueError)
        | .error .indexError => .error (.uncaught .indexError)
        | .error .unmodeled => .error (.uncaught .unmodeled)
        | .ok s => .ok s

/-- The `/execute` handler (lines 29-67 of `server.py`), parametrised by the
behaviour `run` of `subprocess.run` on the resolved command line: early
failures are returned as-is, otherwise the process result is mapped to the
outbound payload (`status` is `success` exactly for exit code 0), a timeout
becomes HTTP 500 with the stringified `TimeoutExpired`, and any other launch
failure becomes HTTP 500 with its message. -/
def execute_command (commands : List (String × CfgVal))
    (run : String → Nat → RunOutcome) (data : List (String × String)) : Outcome :=
  match dispatchPlan commands data with
  | .error o => o
  | .ok cmdStr =>
    match run cmdStr TIMEOUT with
    | .completed rc out err =>
      .response (if rc = 0 then "success" else "error") out err rc
    | .timedOut => .httpError 500 (timeoutMessage cmdStr)
    | .launchFailed msg => .httpError 500 msg

/-- A building block of a template: a literal character or a `{identifier}`
placeholder. -/
inductive Piece where
  | lit (c : Char)
  | ph (nm : String)
deriving DecidableEq

/-- The characters contributed by one piece. -/
def renderPiece : Piece → List Char
  | .lit c => [c]
  | .ph nm => '\x7b' :: (nm.data ++ ['\x7d'])

/-- The template text of a list of pieces. -/
def render : List Piece → List Char
  | [] => []
  | p :: r => renderPiece p ++ render r

/-- The placeholder names of a list of pieces, in order. -/
def phNames : List Piece → List String
  | [] => []
  | .lit _ :: r => phNames r
  | .ph nm :: r => nm :: phNames r

/-- A well-formed placeholder identifier: non-empty, made of word
characters, and not entirely digits (an all-digit field is a positional
index for `str.format`, not a named placeholder). -/
def identOK (nm : String) : Bool :=
  !nm.data.isEmpty && nm.data.all wordChar && !(nm.data.all Char.isDigit)

/-- A well-formed piece: a literal character that is not a brace, or a
placeholder with a well-formed identifier. -/
def pieceOK : Piece → Bool
  | .lit c => !(c == '\x7b' || c == '\x7d')
  | .ph nm => identOK nm

/-- A template in which every brace forms a plain `{identifier}`
placeholder and all other characters are brace-free literals. -/
def piecesOK (ps : List Piece) : Bool := ps.all pieceOK

/-- The output of the resolver described by the spec on a piece template:
each placeholder is replaced by the verbatim value of its same-named key
and every literal character is left unchanged. -/
def substPieces (args : List (String × String)) : List Piece → List Char
  | [] => []
  | .lit c :: r => c :: substPieces args r
  | .ph nm :: r => ((alookup args nm).getD "").data ++ substPieces args r

/-- One character of the resolver algorithm written in the specification,
section 4.2 (this definition follows the spec's words, for comparison with
`pyFormat`, which is the embedding of the code): scan the template for
placeholder tokens `{identifier}`; for each, require a same-named key in
the arguments and substitute its value verbatim at that position; leave
all non-placeholder text unchanged; the first unresolved placeholder in
scan order determines the reported missing-argument name. -/
def srStep (args : List (String × String))
    (st : Except FmtError (Option (List Char) × List Char)) (ch : Char) :
    Except FmtError (Option (List Char) × List Char) :=
  match st with
  | .error e => .error e
  | .ok (none, out) =>
    if ch = '\x7b' then .ok (some [], out) else .ok (none, out ++ [ch])
  | .ok (some nm, out) =>
    if ch = '\x7d' then
      if nm.isEmpty then .ok (none, out ++ ['\x7b', '\x7d'])
      else
        match alookup args (String.mk nm) with
        | some v => .ok (none, out ++ v.data)
        | none => .error (.keyError (String.mk nm))
    else if ch = '\x7b' then .ok (some [], out ++ '\x7b' :: nm)
    else if wordChar ch then .ok (some (nm ++ [ch]), out)
    else .ok (none, out ++ '\x7b' :: (nm ++ [ch]))

/-- The resolver algorithm of the specification, section 4.2, run over a
whole template (the spec-side counterpart of `pyFormat`). -/
def specResolve (t : String) (args : List (String × String)) : Except FmtError String :=
  match t.data.foldl (srStep args) (.ok (none, [])) with
  | .error e => .error e
  | .ok (none, out) => .ok (String.mk out)
  | .ok (some nm, out) => .ok (String.mk (out ++ '\x7b' :: nm))

/-! ### Basic lemmas about the scan -/

theorem step_error (args : List (String × String)) (e : FmtError) (ch : Char) :
    step args (.error e) ch = .error e := rfl

theorem foldl_step_error (args : List (String × String)) (e : FmtError) :
    ∀ l : List Char, l.foldl (step args) (.error e) = .error e := by
  intro l
  induction l with
  | nil => rfl
  | cons c r ih => simpa [List.foldl_cons, step_error] using ih

theorem alookup_append_some {α : Type} (l l2 : List (String × α)) (k : String) (v : α)
    (h : alookup l k = some v) : alookup (l ++ l2) k = some v := by
  induction l with
  | nil => simp [alookup] at h
  | cons kv r ih =>
    obtain ⟨k0, v0⟩ := kv
    by_cases hk : k0 = k
    · simpa [alookup, hk] using h
    · simp [alookup, hk] at h ⊢
      exact ih h

theorem evalField_append (args l2 : List (String × String)) (nm : List Char)
    (cv : Option Char) (v : String) (h : evalField args nm cv = .ok v) :
    evalField (args ++ l2) nm cv = .ok v := by
  unfold evalField at h ⊢
  by_cases h1 : nm.isEmpty = true
  · rw [if_pos h1] at h; exact absurd h (by simp)
  rw [if_neg h1] at h ⊢
  by_cases h2 : (fieldHead nm).isEmpty = true
  · rw [if_pos h2] at h; exact absurd h (by simp)
  rw [if_neg h2] at h ⊢
  by_cases h3 : (fieldHead nm).all Char.isDigit = true
  · rw [if_pos h3] at h; exact absurd h (by simp)
  rw [if_neg h3] at h ⊢
  cases halk : alookup args (String.mk (fieldHead nm)) with
  | none => rw [halk] at h; exact absurd h (by simp)
  | some w =>
    rw [halk] at h
    rw [alookup_append_some args l2 _ w halk]
    exact h

theorem applySpec_ok_iff (args : List (String × String)) (v : String) (sp : List Char)
    (w : String) : applySpec args v sp = .ok w ↔ (sp = [] ∧ w = v) := by
  cases sp with
  | nil => simp [applySpec, eq_comm]
  | cons a r =>
    simp only [applySpec]
    constructor
    · intro h
      split at h <;> exact absurd h (by simp)
    · rintro ⟨h, -⟩
      exact absurd h (by simp)

theorem finishField_append (args l2 : List (String × String)) (nm : List Char)
    (cv : Option Char) (sp : List Char) (out : List Char) (st : Mode × List Char)
    (h : finishField args nm cv sp out = .ok st) :
    finishField (args ++ l2) nm cv sp out = .ok st := by
  cases hev : evalField args nm cv with
  | error e => simp [finishField, hev] at h
  | ok v =>
    cases hsp : applySpec args v sp with
    | error e => simp [finishField, hev, hsp] at h
    | ok w =>
      have hspe : sp = [] := ((applySpec_ok_iff args v sp w).mp hsp).1
      subst hspe
      simp [finishField, hev, applySpec] at h
      simp [finishField, evalField_append args l2 nm cv v hev, applySpec]
      exact h

theorem nameStep_append (args l2 : List (String × String)) (nm out : List Char)
    (ch : Char) (st : Mode × List Char) (h : nameStep args nm out ch = .ok st) :
    nameStep (args ++ l2) nm out ch = .ok st := by
  unfold nameStep at h ⊢
  by_cases hc1 : ch = '\x7d'
  · simp only [hc1, if_pos rfl] at h ⊢
    exact finishField_append args l2 nm none [] out st h
  simp only [if_neg hc1] at h ⊢
  by_cases hb : ch = '!'
  · simpa [hb] using h
  by_cases hcol : ch = ':'
  · simpa [hb, hcol] using h
  by_cases hlb : ch = '\x7b'
  · simp [hb, hcol, hlb] at h
  · simpa [hb, hcol, hlb] using h

theorem step_append (args l2 : List (String × String)) (st : FmtSt) (ch : Char)
    (st' : Mode × List Char) (h : step args st ch = .ok st') :
    step (args ++ l2) st ch = .ok st' := by
  cases st with
  | error e => simp [step] at h
  | ok p =>
    obtain ⟨m, out⟩ := p
    cases m with
    | text => simpa [step] using h
    | sawL =>
      simp only [step] at h ⊢
      by_cases hc : ch = '\x7b'
      · simpa [hc] using h
      · simp only [if_neg hc] at h ⊢
        exact nameStep_append args l2 [] out ch st' h
    | sawR => simpa [step] using h
    | name nm =>
      simp only [step] at h ⊢
      exact nameStep_append args l2 nm out ch st' h
    | bang nm => simpa [step] using h
    | conv nm c =>
      simp only [step] at h ⊢
      by_cases hc : ch = '\x7d'
      · simp only [hc, if_pos rfl] at h ⊢
        exact finishField_append args l2 nm (some c) [] out st' h
      simp only [if_neg hc] at h ⊢
      by_cases hcol : ch = ':'
      · simpa [hcol] using h
      · simp [hcol] at h
    | spec nm c sp d =>
      simp only [step] at h ⊢
      by_cases hc : ch = '\x7d'
      · simp only [hc, if_pos rfl] at h ⊢
        by_cases hd : d = 0
        · simp only [hd, if_pos rfl] at h ⊢
          exact finishField_append args l2 nm c sp out st' h
        · simpa [hd] using h
      simp only [if_neg hc] at h ⊢
      by_cases hlb : ch = '\x7b'
      · simpa [hlb] using h
      · simpa [hlb] using h

theorem foldl_step_append (args l2 : List (String × String)) :
    ∀ (l : List Char) (st : FmtSt) (fin : Mode × List Char),
      l.foldl (step args) st = .ok fin → l.foldl (step (args ++ l2)) st = .ok fin := by
  intro l
  induction l with
  | nil => intro st fin h; simpa using h
  | cons c r ih =>
    intro st fin h
    rw [List.foldl_cons] at h ⊢
    cases hst : step args st c with
    | error e =>
      rw [hst] at h
      rw [foldl_step_error] at h
      exact absurd h (by simp)
    | ok st1 =>
      rw [hst] at h
      rw [step_append args l2 st c st1 hst]
      exact ih _ fin h

theorem wordChar_ne_lbrace {c : Char} (h : wordChar c = true) : c ≠ '\x7b' := by
  intro hc; subst hc; exact absurd h (by decide)

theorem wordChar_ne_rbrace {c : Char} (h : wordChar c = true) : c ≠ '\x7d' := by
  intro hc; subst hc; exact absurd h (by decide)

theorem wordChar_ne_bang {c : Char} (h : wordChar c = true) : c ≠ '!' := by
  intro hc; subst hc; exact absurd h (by decide)

theorem wordChar_ne_colon {c : Char} (h : wordChar c = true) : c ≠ ':' := by
  intro hc; subst hc; exact absurd h (by decide)

theorem wordChar_not_fieldStop {c : Char} (h : wordChar c = true) :
    fieldStops c = false := by
  cases hc : fieldStops c
  · rfl
  · simp [fieldStops] at hc
    rcases hc with hc | hc <;> (subst hc; exact absurd h (by decide))

theorem takeWhile_all {p : Char → Bool} :
    ∀ l : List Char, (∀ c ∈ l, p c = true) → l.takeWhile p = l := by
  intro l
  induction l with
  | nil => intro _; rfl
  | cons c r ih =>
    intro h
    rw [List.takeWhile_cons, h c (by simp)]
    simp [ih (fun d hd => h d (by simp [hd]))]

/-- Accumulating the characters of a placeholder name inside the format
scan's name mode. -/
theorem foldl_step_name (args : List (String × String)) :
    ∀ (cs nm out : List Char), (∀ c ∈ cs, wordChar c = true) →
      cs.foldl (step args) (.ok (.name nm, out)) = .ok (.name (nm ++ cs), out) := by
  intro cs
  induction cs with
  | nil => intro nm out _; simp
  | cons c r ih =>
    intro nm out h
    have hw : wordChar c = true := h c (by simp)
    rw [List.foldl_cons]
    have hstep : step args (.ok (.name nm, out)) c = .ok (.name (nm ++ [c]), out) := by
      simp [step, nameStep, wordChar_ne_rbrace hw, wordChar_ne_bang hw,
        wordChar_ne_colon hw, wordChar_ne_lbrace hw]
    rw [hstep, ih (nm ++ [c]) out (fun d hd => h d (by simp [hd]))]
    simp

/-- Effect of one well-formed placeholder on the format scan: it performs
exactly the lookup of its identifier, substituting the value on success and
raising `KeyError` with the identifier on failure. -/
theorem foldl_step_ph (args : List (String × String)) (nm : String) (out : List Char)
    (hok : identOK nm = true) :
    ('\x7b' :: (nm.data ++ ['\x7d'])).foldl (step args) (.ok (.text, out)) =
      match alookup args nm with
      | some v => .ok (.text, out ++ v.data)
      | none => .error (.keyError nm) := by
  obtain ⟨hne, hword, hdig⟩ : nm.data.isEmpty = false ∧ nm.data.all wordChar = true ∧
      nm.data.all Char.isDigit = false := by
    unfold identOK at hok
    constructor
    · cases hcc : nm.data.isEmpty <;> simp [hcc] at hok ⊢
    constructor
    · cases hcc : nm.data.all wordChar <;> simp [hcc] at hok ⊢
    · cases hcc : nm.data.all Char.isDigit <;> simp [hcc] at hok ⊢
  have hwordm : ∀ c ∈ nm.data, wordChar c = true := by
    intro c hc; exact List.all_eq_true.mp hword c hc
  cases hnm : nm.data with
  | nil => rw [hnm] at hne; simp at hne
  | cons c0 cs =>
    have hw0 : wordChar c0 = true := by
      apply hwordm; rw [hnm]; simp
    have hwcs : ∀ c ∈ cs, wordChar c = true := by
      intro c hc; apply hwordm; rw [hnm]; simp [hc]
    simp only [List.cons_append, List.foldl_cons]
    have h1 : step args (.ok (.text, out)) '\x7b' = .ok (.sawL, out) := by simp [step]
    rw [h1]
    have h2 : step args (.ok (.sawL, out)) c0 = .ok (.name [c0], out) := by
      simp [step, nameStep, wordChar_ne_lbrace hw0, wordChar_ne_rbrace hw0,
        wordChar_ne_bang hw0, wordChar_ne_colon hw0]
    rw [h2, List.foldl_append, foldl_step_name args cs [c0] out hwcs]
    simp only [List.singleton_append, List.foldl_cons, List.foldl_nil]
    have h3 : step args (.ok (.name (c0 :: cs), out)) '\x7d' =
        finishField args (c0 :: cs) none [] out := by
      simp [step, nameStep]
    rw [h3]
    have hhead : fieldHead (c0 :: cs) = c0 :: cs := by
      unfold fieldHead
      apply takeWhile_all
      intro c hc
      have := hwordm c (by rw [hnm]; simpa using hc)
      simp [wordChar_not_fieldStop this]
    have hmkdata : String.mk (c0 :: cs) = nm := by
      cases nm with
      | mk d => simp at hnm; simp [hnm]
    unfold finishField evalField
    rw [hhead, hmkdata]
    have hndig : ((c0 :: cs).all Char.isDigit) = false := by
      rw [hnm] at hdig; exact hdig
    rw [if_neg (by simp)]
    rw [if_neg (by simp)]
    rw [if_neg (by simp [hndig])]
    cases halk : alookup args nm with
    | none => simp
    | some v => simp [applySpec]

/-- Running the format scan over a whole well-formed piece template: the
result is the verbatim substitution when every placeholder's key is
present, and `KeyError` on the first (in scan order) missing name. -/
theorem foldl_step_pieces (args : List (String × String)) :
    ∀ (ps : List Piece) (out : List Char), piecesOK ps = true →
      (render ps).foldl (step args) (.ok (.text, out)) =
        match (phNames ps).find? (fun nm => (alookup args nm).isNone) with
        | some n => .error (.keyError n)
        | none => .ok (.text, out ++ substPieces args ps) := by
  intro ps
  induction ps with
  | nil => intro out _; simp [render, phNames, substPieces]
  | cons p r ih =>
    intro out hok
    have hpok : pieceOK p = true := by
      unfold piecesOK at hok
      exact (List.all_eq_true.mp hok p (by simp))
    have hrok : piecesOK r = true := by
      unfold piecesOK at hok ⊢
      rw [List.all_eq_true] at hok ⊢
      intro q hq; exact hok q (by simp [hq])
    cases p with
    | lit c =>
      have hlb : c ≠ '\x7b' := by
        intro hc; subst hc; simp [pieceOK] at hpok
      have hrb : c ≠ '\x7d' := by
        intro hc; subst hc; simp [pieceOK] at hpok
      have hstep : step args (.ok (.text, out)) c = .ok (.text, out ++ [c]) := by
        simp [step, hlb, hrb]
      rw [show render (.lit c :: r) = c :: render r from rfl, List.foldl_cons, hstep,
        ih (out ++ [c]) hrok]
      simp only [phNames, substPieces]
      cases hf : (phNames r).find? (fun nm => (alookup args nm).isNone) with
      | none => simp [hf, List.append_assoc]
      | some n => simp [hf]
    | ph nm =>
      rw [show render (.ph nm :: r) = ('\x7b' :: (nm.data ++ ['\x7d'])) ++ render r from rfl,
        List.foldl_append, foldl_step_ph args nm out hpok]
      cases halk : alookup args nm with
      | none =>
        rw [foldl_step_error]
        simp [phNames, List.find?, halk]
      | some v =>
        rw [ih (out ++ v.data) hrok]
        simp only [phNames, substPieces, List.find?, halk, Option.isNone_some]
        cases hf : (phNames r).find? (fun nm => (alookup args nm).isNone) with
        | none => simp [hf, halk, List.append_assoc]
        | some n => simp [hf]

/-- Accumulating word characters in the regex scan's open candidate. -/
theorem foldl_phStep_word :
    ∀ (cs nm : List Char) (acc : List String), (∀ c ∈ cs, wordChar c = true) →
      cs.foldl phStep (some nm, acc) = (some (nm ++ cs), acc) := by
  intro cs
  induction cs with
  | nil => intro nm acc _; simp
  | cons c r ih =>
    intro nm acc h
    have hw : wordChar c = true := h c (by simp)
    rw [List.foldl_cons]
    have hstep : phStep (some nm, acc) c = (some (nm ++ [c]), acc) := by
      simp [phStep, wordChar_ne_rbrace hw, wordChar_ne_lbrace hw, hw]
    rw [hstep, ih (nm ++ [c]) acc (fun d hd => h d (by simp [hd]))]
    simp

/-- The regex scan over a well-formed piece template collects exactly the
placeholder names, in order. -/
theorem foldl_phStep_pieces :
    ∀ (ps : List Piece) (acc : List String), piecesOK ps = true →
      (render ps).foldl phStep (none, acc) = (none, acc ++ phNames ps) := by
  intro ps
  induction ps with
  | nil => intro acc _; simp [render, phNames]
  | cons p r ih =>
    intro acc hok
    have hpok : pieceOK p = true := by
      unfold piecesOK at hok
      exact (List.all_eq_true.mp hok p (by simp))
    have hrok : piecesOK r = true := by
      unfold piecesOK at hok ⊢
      rw [List.all_eq_true] at hok ⊢
      intro q hq; exact hok q (by simp [hq])
    cases p with
    | lit c =>
      have hlb : c ≠ '\x7b' := by
        intro hc; subst hc; simp [pieceOK] at hpok
      have hstep : phStep (none, acc) c = (none, acc) := by simp [phStep, hlb]
      rw [show render (.lit c :: r) = c :: render r from rfl, List.foldl_cons, hstep,
        ih acc hrok]
      simp [phNames]
    | ph nm =>
      obtain ⟨hne, hword⟩ : nm.data.isEmpty = false ∧ nm.data.all wordChar = true := by
        unfold pieceOK identOK at hpok
        constructor
        · cases hcc : nm.data.isEmpty <;> simp [hcc] at hpok ⊢
        · cases hcc : nm.data.all wordChar <;> simp [hcc] at hpok ⊢
      have hwordm : ∀ c ∈ nm.data, wordChar c = true :=
        fun c hc => List.all_eq_true.mp hword c hc
      rw [show render (.ph nm :: r) = ('\x7b' :: (nm.data ++ ['\x7d'])) ++ render r from rfl,
        List.foldl_append]
      have hseg : ('\x7b' :: (nm.data ++ ['\x7d'])).foldl phStep (none, acc) =
          (none, acc ++ [nm]) := by
        rw [List.foldl_cons]
        have h1 : phStep (none, acc) '\x7b' = (some [], acc) := by simp [phStep]
        rw [h1, List.foldl_append, foldl_phStep_word nm.data [] acc hwordm]
        have h2 : phStep (some nm.data, acc) '\x7d' = (none, acc ++ [nm]) := by
          simp [phStep]
          intro hemp
          · rw [hemp] at hne; simp at hne
        simp [h2]
      rw [hseg, ih (acc ++ [nm]) hrok]
      simp [phNames]

/-- On a well-formed piece template, the code's placeholder-listing regex
finds exactly the placeholder names, in order. -/
theorem findPlaceholders_render (ps : List Piece) (h : piecesOK ps = true) :
    findPlaceholders (String.mk (render ps)) = phNames ps := by
  unfold findPlaceholders
  rw [show (String.mk (render ps)).data = render ps from rfl,
    foldl_phStep_pieces ps [] h]
  simp

/-! ### Lemmas about the dispatcher's argument stripping -/

theorem alookup_strip_command (data : List (String × String)) :
    alookup (stripArgs data) "command" = none := by
  induction data with
  | nil => rfl
  | cons kv r ih =>
    obtain ⟨k, v⟩ := kv
    by_cases hk : k = "command"
    · simp [stripArgs, List.filter_cons, hk] at ih ⊢
      exact ih
    · simp [stripArgs, List.filter_cons, hk] at ih ⊢
      simp [alookup, hk, ih]

theorem alookup_strip_other (data : List (String × String)) (nm : String)
    (h : nm ≠ "command") : alookup (stripArgs data) nm = alookup data nm := by
  induction data with
  | nil => rfl
  | cons kv r ih =>
    obtain ⟨k, v⟩ := kv
    by_cases hk : k = "command"
    · subst hk
      simp [stripArgs, List.filter_cons] at ih ⊢
      rw [ih, alookup, if_neg (by intro hc; exact h hc.symm)]
    · simp [stripArgs, List.filter_cons, hk] at ih ⊢
      by_cases hkn : k = nm
      · simp [alookup, hkn]
      · simp [alookup, hkn, ih]

/-- `find?` returns the distinguished element when it is the only element
satisfying the predicate and it occurs in the list. -/
theorem find?_unique_mem (p : String → Bool) :
    ∀ (l : List String) (x : String), x ∈ l → p x = true →
      (∀ y ∈ l, p y = true → y = x) → l.find? p = some x := by
  intro l
  induction l with
  | nil => intro x hx; simp at hx
  | cons a r ih =>
    intro x hx hpx hall
    cases hpa : p a with
    | true =>
      rw [List.find?_cons_of_pos _ hpa]
      rw [hall a (by simp) hpa]
    | false =>
      rw [List.find?_cons_of_neg _ (by simp [hpa])]
      have hxr : x ∈ r := by
        cases List.mem_cons.mp hx with
        | inl hax => subst hax; rw [hpa] at hpx; exact absurd hpx (by simp)
        | inr hr => exact hr
      exact ih x hxr hpx (fun y hy hpy => hall y (by simp [hy]) hpy)


/-- On a well-formed piece template whose placeholders all have keys, the
code's resolver returns exactly the spec's verbatim substitution. -/
theorem pyFormat_pieces_complete (ps : List Piece) (args : List (String × String))
    (hok : piecesOK ps = true)
    (hcomplete : ∀ nm ∈ phNames ps, (alookup args nm).isSome = true) :
    pyFormat (String.mk (render ps)) args = .ok (String.mk (substPieces args ps)) := by
  have hfind : (phNames ps).find? (fun nm => (alookup args nm).isNone) = none := by
    rw [List.find?_eq_none]
    intro x hx
    have hs := hcomplete x hx
    cases halk : alookup args x with
    | none => rw [halk] at hs; simp at hs
    | some v => simp [halk]
  unfold pyFormat
  rw [show (String.mk (render ps)).data = render ps from rfl,
    foldl_step_pieces args ps [] hok, hfind]
  simp

/-- On a well-formed piece template, the code's resolver reports exactly
the first placeholder, in scan order, whose key is missing. -/
theorem pyFormat_pieces_first_missing (ps : List Piece) (args : List (String × String))
    (n : String) (hok : piecesOK ps = true)
    (hfirst : (phNames ps).find? (fun nm => (alookup args nm).isNone) = some n) :
    pyFormat (String.mk (render ps)) args = .error (.keyError n) := by
  unfold pyFormat
  rw [show (String.mk (render ps)).data = render ps from rfl,
    foldl_step_pieces args ps [] hok, hfirst]

/-! ### The claims -/

/-- C1: the spec says both configuration forms (a plain template string and
a record with `cmd` and `description`) are dispatchable through the same
lookup-resolve-execute pipeline.  The code contradicts this: `/commands`
lists a record entry with its template, and the record's template resolves
fine on its own, but `/execute` calls `.format` directly on the registry
value, so a record entry raises `AttributeError` (an uncaught
transport-level failure) instead of resolving and executing its template;
only the plain form is dispatchable. -/
theorem c1_record_config_not_dispatchable (run : String → Nat → RunOutcome) :
    execute_command [("hello", CfgVal.record "echo hi" "greets")] run
        [("command", "hello")] = Outcome.uncaught PyExc.attributeError
    ∧ listedTemplate (CfgVal.record "echo hi" "greets") = "echo hi"
    ∧ pyFormat "echo hi" [] = .ok "echo hi"
    ∧ execute_command [("hello", CfgVal.plain "echo hi")]
        (fun _ _ => RunOutcome.completed 0 "hi" "") [("command", "hello")]
        = Outcome.response "success" "hi" "" 0 :=
  ⟨rfl, rfl, rfl, rfl⟩

/-- C2: when the dispatch plan succeeds and the process completes normally,
the handler returns the populated payload whose status is `success` exactly
when the exit code is 0 and `error` otherwise, with the captured stdout,
stderr and integer returncode, raising nothing; in particular exit code 2
yields status `error` with returncode 2. -/
theorem c2_completed_run_payload (commands : List (String × CfgVal))
    (run : String → Nat → RunOutcome) (data : List (String × String))
    (c : String) (rc : Int) (out err : String)
    (hplan : dispatchPlan commands data = .ok c)
    (hrun : run c TIMEOUT = .completed rc out err) :
    execute_command commands run data
        = .response (if rc = 0 then "success" else "error") out err rc
    ∧ (rc = 2 → execute_command commands run data = .response "error" out err 2) := by
  have hmain : execute_command commands run data
      = .response (if rc = 0 then "success" else "error") out err rc := by
    simp [execute_command, hplan, hrun]
  refine ⟨hmain, fun h2 => ?_⟩
  rw [hmain, h2]
  norm_num

/-- Witness for C2 at a concrete registry, request and process behaviour
with exit code 2. -/
theorem c2_witness :
    dispatchPlan [("go", CfgVal.plain "foo")] [("command", "go")] = .ok "foo"
    ∧ execute_command [("go", CfgVal.plain "foo")]
        (fun _ _ => RunOutcome.completed 2 "o" "e") [("command", "go")]
        = .response "error" "o" "e" 2 :=
  ⟨rfl, (c2_completed_run_payload [("go", CfgVal.plain "foo")]
      (fun _ _ => RunOutcome.completed 2 "o" "e") [("command", "go")]
      "foo" 2 "o" "e" rfl rfl).2 rfl⟩

/-- C3, counterexample: on the template `a{{x}}b` with argument `x = V`,
the placeholder token `{x}` is present (the repository's own placeholder
regex finds it) and `x` has a same-named key, yet the code's resolver
substitutes nothing (the value `V` does not occur in the output at all) and
rewrites the non-placeholder text: doubled braces are format-string escapes
that collapse to single braces.  The spec's scan-substitute resolver would
produce `a{V}b`. -/
theorem c3_counterexample :
    findPlaceholders "a\x7b\x7bx\x7d\x7db" = ["x"]
    ∧ pyFormat "a\x7b\x7bx\x7d\x7db" [("x", "V")] = .ok "a\x7bx\x7db"
    ∧ specResolve "a\x7b\x7bx\x7d\x7db" [("x", "V")] = .ok "a\x7bV\x7db"
    ∧ ("a\x7bx\x7db" : String) ≠ "a\x7bV\x7db"
    ∧ ¬ ('V' ∈ "a\x7bx\x7db".data) :=
  ⟨by decide, rfl, rfl, by decide, by decide⟩

/-- C3, amended: for every template in which each brace forms a plain
`{identifier}` placeholder (no doubled-brace escapes, conversions or format
specifications) and every argument mapping with a same-named key for each
placeholder, resolution substitutes each placeholder's value verbatim at
its position and leaves all other text unchanged, with no quoting,
escaping or coercion. -/
theorem c3_simple_template_verbatim (ps : List Piece) (args : List (String × String))
    (hok : piecesOK ps = true)
    (hcomplete : ∀ nm ∈ phNames ps, (alookup args nm).isSome = true) :
    pyFormat (String.mk (render ps)) args = .ok (String.mk (substPieces args ps)) :=
  pyFormat_pieces_complete ps args hok hcomplete

/-- Witness for the amended C3 on the template `echo {x} {y}`. -/
theorem c3_witness :
    piecesOK [Piece.lit 'e', Piece.lit 'c', Piece.lit 'h', Piece.lit 'o',
        Piece.lit ' ', Piece.ph "x", Piece.lit ' ', Piece.ph "y"] = true
    ∧ pyFormat "echo \x7bx\x7d \x7by\x7d" [("x", "1"), ("y", "2")] = .ok "echo 1 2" :=
  ⟨by decide,
    c3_simple_template_verbatim
      [Piece.lit 'e', Piece.lit 'c', Piece.lit 'h', Piece.lit 'o',
        Piece.lit ' ', Piece.ph "x", Piece.lit ' ', Piece.ph "y"]
      [("x", "1"), ("y", "2")] (by decide) (by decide)⟩

/-- C4, counterexample: on the template `{{a}}{b}{c}` with no arguments,
the placeholder tokens in left-to-right scan order are `a`, `b`, `c` (as
the repository's own placeholder regex reports) and at least two are
missing, but the resolver raises `KeyError` for `b`, not for the first
token `a`: the doubled braces around `a` are treated as escapes, so `a` is
never looked up. -/
theorem c4_counterexample :
    findPlaceholders "\x7b\x7ba\x7d\x7d\x7bb\x7d\x7bc\x7d" = ["a", "b", "c"]
    ∧ 2 ≤ (["a", "b", "c"].filter
        (fun nm => (alookup ([] : List (String × String)) nm).isNone)).length
    ∧ (["a", "b", "c"].find?
        (fun nm => (alookup ([] : List (String × String)) nm).isNone)) = some "a"
    ∧ pyFormat "\x7b\x7ba\x7d\x7d\x7bb\x7d\x7bc\x7d" [] = .error (.keyError "b")
    ∧ ("b" : String) ≠ "a" :=
  ⟨by decide, by decide, by decide, rfl, by decide⟩

/-- C4, amended: for every template in which each brace forms a plain
`{identifier}` placeholder, when two or more placeholders are missing from
the argument mapping the reported missing-argument name is exactly the
first unresolved placeholder in the template's left-to-right scan order. -/
theorem c4_first_missing_reported (ps : List Piece) (args : List (String × String))
    (n : String) (hok : piecesOK ps = true)
    (hmany : 2 ≤ ((findPlaceholders (String.mk (render ps))).filter
        (fun nm => (alookup args nm).isNone)).length)
    (hfirst : (findPlaceholders (String.mk (render ps))).find?
        (fun nm => (alookup args nm).isNone) = some n) :
    pyFormat (String.mk (render ps)) args = .error (.keyError n) := by
  rw [findPlaceholders_render ps hok] at hfirst
  exact pyFormat_pieces_first_missing ps args n hok hfirst

/-- Witness for the amended C4 on the template `{x} {y}` with both
placeholders missing: the reported name is `x`, the first in scan order. -/
theorem c4_witness :
    piecesOK [Piece.ph "x", Piece.lit ' ', Piece.ph "y"] = true
    ∧ pyFormat "\x7bx\x7d \x7by\x7d" [] = .error (.keyError "x") :=
  ⟨by decide,
    c4_first_missing_reported [Piece.ph "x", Piece.lit ' ', Piece.ph "y"] [] "x"
      (by decide) (by decide) (by decide)⟩

/-- C5: if a template resolves successfully, appending a further key that
is not referenced by any placeholder of the template (and not already
present) leaves the resolution outcome and the resolved command line
unchanged: extra keys are accepted and ignored. -/
theorem c5_unused_keys_ignored (t : String) (args : List (String × String))
    (k v s : String) (hph : k ∉ findPlaceholders t) (hfresh : alookup args k = none)
    (hok : pyFormat t args = .ok s) :
    pyFormat t (args ++ [(k, v)]) = .ok s := by
  unfold pyFormat at hok ⊢
  cases hfold : t.data.foldl (step args) (.ok (.text, [])) with
  | error e => rw [hfold] at hok; exact absurd hok (by simp)
  | ok p =>
    rw [hfold] at hok
    obtain ⟨m, out⟩ := p
    cases m with
    | text =>
      rw [foldl_step_append args [(k, v)] t.data _ _ hfold]
      exact hok
    | sawL => exact absurd hok (by simp)
    | sawR => exact absurd hok (by simp)
    | name nm => exact absurd hok (by simp)
    | bang nm => exact absurd hok (by simp)
    | conv nm c => exact absurd hok (by simp)
    | spec nm c sp d => exact absurd hok (by simp)

/-- C6: when the request's command name is present and non-empty but is not
a key of the registry, the dispatch plan stops with HTTP 404 `Unknown
command` before any command line is produced (so no process is launched,
whatever the process behaviour `run` would be), and the handler surfaces
exactly that not-found error. -/
theorem c6_unknown_command_no_launch (commands : List (String × CfgVal))
    (run : String → Nat → RunOutcome) (data : List (String × String)) (name : String)
    (h1 : alookup data "command" = some name) (h2 : name ≠ "")
    (h3 : alookup commands name = none) :
    dispatchPlan commands data = .error (.httpError 404 "Unknown command")
    ∧ execute_command commands run data = .httpError 404 "Unknown command" := by
  have hplan : dispatchPlan commands data = .error (.httpError 404 "Unknown command") := by
    simp [dispatchPlan, h1, h2, h3]
  exact ⟨hplan, by simp [execute_command, hplan]⟩

/-- Witness for C6: the name `pwd` is absent from a registry containing
only `ls`. -/
theorem c6_witness :
    alookup [("command", "pwd")] "command" = some "pwd"
    ∧ ("pwd" : String) ≠ ""
    ∧ alookup [("ls", CfgVal.plain "ls")] "pwd" = none
    ∧ execute_command [("ls", CfgVal.plain "ls")]
        (fun _ _ => RunOutcome.completed 0 "" "") [("command", "pwd")]
        = .httpError 404 "Unknown command" :=
  ⟨rfl, by decide, rfl,
    (c6_unknown_command_no_launch [("ls", CfgVal.plain "ls")]
      (fun _ _ => RunOutcome.completed 0 "" "") [("command", "pwd")] "pwd"
      rfl (by decide) rfl).2⟩

/-- C7: a request whose `command` field is absent or empty is rejected
outright with HTTP 400 before registry lookup, resolution or execution
(the dispatch plan already fails, so no process is launched, for any
registry), and this validation failure is distinct from the not-found
error of an unrecognized name; the classified failures carry HTTP-style
status classes: 404 for an unknown command, 400 for a missing argument,
and 500 for timeout and launch failures. -/
theorem c7_validation_and_status_classes (commands : List (String × CfgVal))
    (run runT runL : String → Nat → RunOutcome)
    (d0 d1 d2 d3 : List (String × String)) (nm1 nm2 t2 mA cs3 lm : String)
    (h0 : alookup d0 "command" = none ∨ alookup d0 "command" = some "")
    (h1a : alookup d1 "command" = some nm1) (h1b : nm1 ≠ "")
    (h1c : alookup commands nm1 = none)
    (h2a : alookup d2 "command" = some nm2) (h2b : nm2 ≠ "")
    (h2c : alookup commands nm2 = some (.plain t2))
    (h2d : pyFormat t2 (stripArgs d2) = .error (.keyError mA))
    (h3a : dispatchPlan commands d3 = .ok cs3)
    (h3b : runT cs3 TIMEOUT = .timedOut)
    (h3c : runL cs3 TIMEOUT = .launchFailed lm) :
    dispatchPlan commands d0 = .error (.httpError 400 "Missing \x27command\x27 field")
    ∧ execute_command commands run d0 = .httpError 400 "Missing \x27command\x27 field"
    ∧ execute_command commands run d1 = .httpError 404 "Unknown command"
    ∧ execute_command commands run d2 = .httpError 400 ("Missing argument: " ++ mA)
    ∧ execute_command commands runT d3 = .httpError 500 (timeoutMessage cs3)
    ∧ execute_command commands runL d3 = .httpError 500 lm := by
  have hplan0 : dispatchPlan commands d0
      = .error (.httpError 400 "Missing \x27command\x27 field") := by
    cases h0 with
    | inl h => simp [dispatchPlan, h]
    | inr h => simp [dispatchPlan, h]
  refine ⟨hplan0, by simp [execute_command, hplan0], ?_, ?_, ?_, ?_⟩
  · simp [execute_command, dispatchPlan, h1a, h1b, h1c]
  · simp [execute_command, dispatchPlan, h2a, h2b, h2c, h2d]
  · simp [execute_command, h3a, h3b]
  · simp [execute_command, h3a, h3c]

/-- Witness for C7 covering all five classified failures concretely. -/
theorem c7_witness :
    execute_command [("go", CfgVal.plain "echo \x7bx\x7d")]
        (fun _ _ => RunOutcome.completed 0 "" "") []
        = .httpError 400 "Missing \x27command\x27 field"
    ∧ execute_command [("go", CfgVal.plain "echo \x7bx\x7d")]
        (fun _ _ => RunOutcome.completed 0 "" "") [("command", "nope")]
        = .httpError 404 "Unknown command"
    ∧ execute_command [("go", CfgVal.plain "echo \x7bx\x7d")]
        (fun _ _ => RunOutcome.completed 0 "" "") [("command", "go")]
        = .httpError 400 ("Missing argument: " ++ "x")
    ∧ execute_command [("go", CfgVal.plain "echo \x7bx\x7d")]
        (fun _ _ => RunOutcome.timedOut) [("command", "go"), ("x", "1")]
        = .httpError 500 (timeoutMessage "echo 1")
    ∧ execute_command [("go", CfgVal.plain "echo \x7bx\x7d")]
        (fun _ _ => RunOutcome.launchFailed "boom") [("command", "go"), ("x", "1")]
        = .httpError 500 "boom" := by
  have h := c7_validation_and_status_classes [("go", CfgVal.plain "echo \x7bx\x7d")]
    (fun _ _ => RunOutcome.completed 0 "" "") (fun _ _ => RunOutcome.timedOut)
    (fun _ _ => RunOutcome.launchFailed "boom")
    [] [("command", "nope")] [("command", "go")] [("command", "go"), ("x", "1")]
    "nope" "go" "echo \x7bx\x7d" "x" "echo 1" "boom"
    (Or.inl rfl) rfl (by decide) rfl rfl (by decide) rfl rfl rfl rfl rfl
  exact ⟨h.2.1, h.2.2.1, h.2.2.2.1, h.2.2.2.2.1, h.2.2.2.2.2⟩

/-- C9, counterexample: the template `{x!r}` has an empty `{identifier}`
placeholder set (the repository's placeholder regex finds nothing, as the
token is closed by `!r`), so the empty argument mapping contains a key for
every placeholder; yet resolution fails with `KeyError` for `x`, because
`str.format` also requires keys for replacement fields that are not plain
placeholder tokens. -/
theorem c9_counterexample :
    findPlaceholders "\x7bx!r\x7d" = []
    ∧ pyFormat "\x7bx!r\x7d" [] = .error (.keyError "x") :=
  ⟨by decide, rfl⟩

/-- C9, amended: for every template in which each brace forms a plain
`{identifier}` placeholder, resolving with an argument mapping that
contains a key for every placeholder never fails with a missing-argument
error. -/
theorem c9_complete_args_never_missing (ps : List Piece) (args : List (String × String))
    (hok : piecesOK ps = true)
    (hcomplete : ∀ nm ∈ phNames ps, (alookup args nm).isSome = true) :
    ∀ n : String, pyFormat (String.mk (render ps)) args ≠ .error (.keyError n) := by
  intro n hcontra
  rw [pyFormat_pieces_complete ps args hok hcomplete] at hcontra
  exact absurd hcontra (by simp)

/-- Witness for the amended C9 on the template `{a}` with its key
supplied. -/
theorem c9_witness :
    piecesOK [Piece.ph "a"] = true
    ∧ pyFormat "\x7ba\x7d" [("a", "go")] ≠ .error (.keyError "q") :=
  ⟨by decide,
    c9_complete_args_never_missing [Piece.ph "a"] [("a", "go")]
      (by decide) (by decide) "q"⟩

/-- C10, counterexample: the registered template `echo {{command}}`
contains the placeholder token `{command}` (the repository's placeholder
regex reports exactly `command`), and the request supplies a `command`
key, yet dispatch does not fail with a missing argument: the doubled
braces are format escapes, the field is never looked up, and the command
executes successfully. -/
theorem c10_counterexample :
    findPlaceholders "echo \x7b\x7bcommand\x7d\x7d" = ["command"]
    ∧ execute_command [("run", CfgVal.plain "echo \x7b\x7bcommand\x7d\x7d")]
        (fun _ _ => RunOutcome.completed 0 "ok" "") [("command", "run")]
        = .response "success" "ok" "" 0 :=
  ⟨by decide, rfl⟩

/-- C10, amended: when a registered template actually parses `{command}`
as a replacement field (each brace a plain `{identifier}` placeholder) and
the request supplies every other placeholder, dispatch always fails with
HTTP 400 `Missing argument: command` even though the request carries a
`command` key, because the dispatcher removes that key from the argument
mapping before resolution. -/
theorem c10_command_placeholder_unfillable (commands : List (String × CfgVal))
    (run : String → Nat → RunOutcome) (data : List (String × String))
    (ps : List Piece) (name : String)
    (hok : piecesOK ps = true) (hmem : "command" ∈ phNames ps)
    (hlook : alookup data "command" = some name) (hname : name ≠ "")
    (hreg : alookup commands name = some (.plain (String.mk (render ps))))
    (hothers : ∀ nm ∈ phNames ps, nm ≠ "command" →
        (alookup (stripArgs data) nm).isSome = true) :
    execute_command commands run data = .httpError 400 "Missing argument: command" := by
  have hfirst : (phNames ps).find?
      (fun nm => (alookup (stripArgs data) nm).isNone) = some "command" := by
    apply find?_unique_mem _ (phNames ps) "command" hmem
    · simp [alookup_strip_command data]
    · intro y hy hpy
      by_contra hne
      have hs := hothers y hy hne
      cases halk : alookup (stripArgs data) y with
      | none => rw [halk] at hs; exact absurd hs (by simp)
      | some v => rw [halk] at hpy; exact absurd hpy (by simp)
  have hfmt := pyFormat_pieces_first_missing ps (stripArgs data) "command" hok hfirst
  have hplan : dispatchPlan commands data
      = .error (.httpError 400 "Missing argument: command") := by
    simp [dispatchPlan, hlook, hname, hreg, hfmt]
  simp [execute_command, hplan]

/-- Witness for the amended C10: registry entry `deploy` with template
`{command}`; the request supplies `command = deploy`, dispatch reports the
argument `command` as missing. -/
theorem c10_witness :
    piecesOK [Piece.ph "command"] = true
    ∧ findPlaceholders "\x7bcommand\x7d" = ["command"]
    ∧ execute_command [("deploy", CfgVal.plain "\x7bcommand\x7d")]
        (fun _ _ => RunOutcome.completed 0 "" "") [("command", "deploy")]
        = .httpError 400 "Missing argument: command" :=
  ⟨by decide, by decide,
    c10_command_placeholder_unfillable [("deploy", CfgVal.plain "\x7bcommand\x7d")]
      (fun _ _ => RunOutcome.completed 0 "" "") [("command", "deploy")]
      [Piece.ph "command"] "deploy" (by decide) (by decide) rfl (by decide) rfl
      (by decide)⟩

/-- Witness for C5: adding the unused key `y` leaves `echo {x}` resolved
to the same command line. -/
theorem c5_witness :
    ("y" ∉ findPlaceholders "echo \x7bx\x7d")
    ∧ alookup [("x", "1")] "y" = none
    ∧ pyFormat "echo \x7bx\x7d" [("x", "1")] = .ok "echo 1"
    ∧ pyFormat "echo \x7bx\x7d" ([("x", "1")] ++ [("y", "2")]) = .ok "echo 1" :=
  ⟨by decide, rfl, rfl,
    c5_unused_keys_ignored "echo \x7bx\x7d" [("x", "1")] "y" "2" "echo 1"
      (by decide) rfl rfl⟩
